import Mathlib

/-!
# NoiseCanvas tracker engine — shallow embedding

This file embeds the pattern-sequencing and sample-mixing core of the
NoiseCanvas tracker engine (`src/sampler.js`, tick-based variant), the
S3M module-to-pattern adapter (`src/s3m-loader.js`), and the MOD
initial-tempo scan (`ModLoader._scanInitialTempo`) in Lean 4 and proves
properties of the embedded definitions.

Modelling conventions:
* JavaScript numbers are modelled as exact rationals (`ℚ`); integers
  stored in 16-bit buffers as `Int`.  `Math.floor` is `⌊·⌋`,
  `Math.max/min` are `max`/`min`.
* The two transcendental library calls the engine makes,
  `Math.pow(2, s/12)` (pitch ratio from a semitone count) and
  `Math.sqrt(channelCount)` (mixer scale factor), are irrational; the
  engine definitions take them as function parameters `pow2 : Int → ℚ`
  and `sqrtQ : Nat → ℚ`.  Every theorem below holds for all values of
  these parameters, i.e. no claim depends on the numeric value of a
  pitch ratio or of the scale factor.
* Fallible code (`throw`) is modelled with `Except`.
-/

/-- Structural decidable equality for `Except`, used to evaluate
concrete runs of the fallible engine operations. -/
instance {ε α : Type _} [DecidableEq ε] [DecidableEq α] : DecidableEq (Except ε α)
  | .ok a, .ok b =>
      if h : a = b then .isTrue (by rw [h]) else .isFalse (by simp [h])
  | .error e, .error f =>
      if h : e = f then .isTrue (by rw [h]) else .isFalse (by simp [h])
  | .ok _, .error _ => .isFalse (by simp)
  | .error _, .ok _ => .isFalse (by simp)

namespace NoiseCanvas

/-! ## JavaScript number helpers -/

/-- Truncation toward zero, the conversion JavaScript applies when a
number is stored into an `Int16Array` (after which the store wraps
mod 2^16; the wrap is the identity on the clamped range used below). -/
def jsTrunc (q : ℚ) : Int := if 0 ≤ q then ⌊q⌋ else ⌈q⌉

/-- The mixer's clamp, `Math.max(-32768, Math.min(32767, q))`. -/
def clamp16 (q : ℚ) : ℚ := max (-32768) (min 32767 q)

/-- One mixed 16-bit sample: `existing + addition * scaleFactor`,
clamped, then stored through the `Int16Array` view
(`sampler.js` lines 884-887). -/
def mixSample (scale : ℚ) (existing addition : Int) : Int :=
  jsTrunc (clamp16 ((existing : ℚ) + (addition : ℚ) * scale))

/-! ## Errors thrown by the engine (`throw new Error(...)` sites) -/

/-- The error conditions of `Sampler` (sampler.js): malformed note
string, unknown chromatic name, unregistered sample name, missing
`bpm` option. -/
inductive SamplerError where
  | invalidNoteFormat (note : String)
  | invalidNoteName (name : String)
  | sampleNotFound (name : String)
  | bpmRequired
  deriving DecidableEq, Repr

/-! ## Note parsing (`Sampler.noteToSemitones`, sampler.js 454-479) -/

/-- The 12 chromatic note names of `noteNames` (sampler.js 455), in
semitone order. -/
def noteNames : List String :=
  ["C", "C#", "D", "D#", "E", "F"] ++ ["F#", "G", "G#", "A", "A#", "B"]

/-- Decomposition of a note string per the regex
`^([A-G]#?)[-]?(\d)$`: the captured letter(+sharp) and the octave
digit, or `none` when the regex does not match. -/
def splitNote (s : String) : Option (String × Char) :=
  match s.data with
  | [l, d] =>
      if ('A' ≤ l ∧ l ≤ 'G') ∧ ('0' ≤ d ∧ d ≤ '9') then
        some (String.mk [l], d) else none
  | [l, '#', d] =>
      if ('A' ≤ l ∧ l ≤ 'G') ∧ ('0' ≤ d ∧ d ≤ '9') then
        some (String.mk [l, '#'], d) else none
  | [l, '-', d] =>
      if ('A' ≤ l ∧ l ≤ 'G') ∧ ('0' ≤ d ∧ d ≤ '9') then
        some (String.mk [l], d) else none
  | [l, '#', '-', d] =>
      if ('A' ≤ l ∧ l ≤ 'G') ∧ ('0' ≤ d ∧ d ≤ '9') then
        some (String.mk [l, '#'], d) else none
  | _ => none

/-- The inner closure `parseNote` of `noteToSemitones`: absolute
semitone index `octave * 12 + noteIndex`, octave 0 as reference. -/
def parseNote (s : String) : Except SamplerError Nat :=
  match splitNote s with
  | none => .error (.invalidNoteFormat s)
  | some (name, d) =>
      match noteNames.findIdx? (· == name) with
      | none => .error (.invalidNoteName name)
      | some idx => .ok ((d.toNat - '0'.toNat) * 12 + idx)

/-- The method `Sampler.noteToSemitones(targetNote, baseNote)`. -/
def noteToSemitones (targetNote baseNote : String) : Except SamplerError Int := do
  let t ← parseNote targetNote
  let b ← parseNote baseNote
  pure ((t : Int) - (b : Int))

/-! ## Sample store (`Sampler.loadSample` / `this.samples`) -/

/-- An entry of the sample registry (`this.samples.set(name, {...})`,
sampler.js 488-495): raw signed 8-bit PCM values, the base note, and
the loop region. -/
structure Sample where
  data : List Int
  baseNote : String
  loopStart : Nat
  loopLength : Nat
  deriving DecidableEq, Repr

/-- The derived flag `hasLoop: loopLength > 2` (MOD convention,
sampler.js 494). -/
def Sample.hasLoop (s : Sample) : Bool := 2 < s.loopLength

/-- The registry `this.samples : Map name → sample`, as an association
list; `lookupSample` is `samples.get(name)`. -/
def SampleMap : Type := List (String × Sample)

/-- The registry lookup `this.samples.get(name)`. -/
def lookupSample (S : SampleMap) (name : String) : Option Sample :=
  match S with
  | [] => none
  | (k, v) :: rest => if k = name then some v else lookupSample rest name

/-- A defined read `buffer.readInt8(i)` of the PCM byte at index `i`.
The guards in the rendering loop keep `i` inside the buffer whenever
the pitch ratio is positive; out-of-range reads return 0 here (Node
would throw a `RangeError`, a corner no claim touches). -/
def readInt8 (data : List Int) (i : Int) : Int :=
  if i < 0 then 0 else data.getD i.toNat 0

/-! ## Pattern cells handed to the engine -/

/-- The field `step.note`: a note-name string, a raw semitone number, or absent
(JS `undefined`, which `step.note || 0` turns into 0). -/
inductive NoteField where
  | str (s : String)
  | num (n : Int)
  | noneF
  deriving DecidableEq, Repr

/-- One non-empty pattern cell (`step`) consumed by
`Sampler.playPattern`: sample name, note, optional volume/pan, and the
optional effect pair (`'SD'` is the note-delay effect, sampler.js 711). -/
structure Step where
  sample : String
  note : NoteField
  volume : Option ℚ
  pan : Option ℚ
  effect : Option String
  effectParam : Option Int
  deriving DecidableEq, Repr

/-! ## Channel playback state (`channelStates[i]`, sampler.js 661-675) -/

/-- The note stashed by the `'SD'` note-delay effect
(`state.delayedNote`, sampler.js 715-724). -/
structure DelayedNote where
  sample : String
  sampleData : List Int
  pitch : ℚ
  hasLoop : Bool
  loopStart : Nat
  loopEnd : Nat
  volume : ℚ
  pan : ℚ
  deriving DecidableEq, Repr

/-- Per-channel playback state.  `pitch` is the source's `pitchRatio`
field (the value of `Math.pow(2, semitone/12)`). -/
structure ChannelState where
  sample : Option String
  sampleData : Option (List Int)
  position : Nat
  pitch : ℚ
  volume : ℚ
  pan : ℚ
  hasLoop : Bool
  loopStart : Nat
  loopEnd : Nat
  active : Bool
  delayedNote : Option DelayedNote
  delayTicks : Int
  deriving DecidableEq, Repr

/-- The initial state of every channel (sampler.js 661-675). -/
def initialChannelState : ChannelState :=
  { sample := none, sampleData := none, position := 0, pitch := 1,
    volume := 64, pan := 128, hasLoop := false, loopStart := 0,
    loopEnd := 0, active := false, delayedNote := none, delayTicks := 0 }

/-! ## The per-tick rendering loop (sampler.js 779-825) -/

/-- The body of `while (bytesWritten < tickDurationBytes)`: renders up
to `n` stereo frames of the active sample into interleaved 16-bit
values (left then right per frame), returning the written values, the
final `position`, and the final `active` flag.  The written values are
the computed integers; Node's `writeInt16LE` additionally rejects a
value outside the 16-bit range, which the gain factors rule out for
the 0..64 volume range the adapters emit, and the mixer's clamp keeps
the final output in range regardless.  A loop `break` without
deactivation (sample position fell outside the data with no loop wrap
possible) stops writing but keeps `active = true`, exactly as in the
source; the caller pads the tick buffer with the zeroes
`Buffer.alloc` pre-filled. -/
def renderLoop (data : List Int) (pitch volScale leftGain rightGain : ℚ)
    (hasLoop : Bool) (loopStart loopEnd : Nat) :
    Nat → Nat → List Int × Nat × Bool
  | pos, 0 => ([], pos, true)
  | pos, n + 1 =>
    let sourcePosition : ℚ := (pos : ℚ) * pitch
    let sourceIndex : Int := Rat.floor sourcePosition
    -- `handle looping` / end-of-sample branch
    let branch : Option Int :=  -- `some actualIndex` to continue, `none` to deactivate
      if hasLoop ∧ (loopEnd : Int) ≤ sourceIndex then
        let loopLen : Int := (loopEnd : Int) - (loopStart : Int)
        if 0 < loopLen then some ((loopStart : Int) + (sourceIndex - (loopStart : Int)) % loopLen)
        else none
      else if (data.length : Int) ≤ sourceIndex then none
      else some sourceIndex
    match branch with
    | none => ([], pos, false)
    | some actualIndex =>
      -- linear interpolation (sampler.js 801-812)
      let fraction : ℚ := sourcePosition - (Rat.floor sourcePosition : ℚ)
      let sample8 : Option ℚ :=
        if 0 < fraction ∧ actualIndex + 1 < (data.length : Int) then
          let s1 := readInt8 data actualIndex
          let s2 := readInt8 data (actualIndex + 1)
          some ((s1 : ℚ) + ((s2 : ℚ) - (s1 : ℚ)) * fraction)
        else if actualIndex < (data.length : Int) then some ((readInt8 data actualIndex : Int) : ℚ)
        else none  -- plain `break`: stop writing, stay active
      match sample8 with
      | none => ([], pos, true)
      | some s8 =>
        let sample16 : Int := Rat.floor (s8 * 256 * volScale)
        let leftSample : Int := Rat.floor ((sample16 : ℚ) * leftGain)
        let rightSample : Int := Rat.floor ((sample16 : ℚ) * rightGain)
        let (rest, pos', act) :=
          renderLoop data pitch volScale leftGain rightGain hasLoop loopStart loopEnd (pos + 1) n
        (leftSample :: rightSample :: rest, pos', act)

/-- Render one tick buffer for a channel (sampler.js 770-826):
`nFrames` stereo frames (`tickDurationSamples`), pre-zeroed and partly
overwritten while the channel is active.  Returns the updated state
and the interleaved 16-bit contents of the tick buffer (always
`2 * nFrames` values). -/
def renderTick (st : ChannelState) (nFrames : Nat) : ChannelState × List Int :=
  match st.sampleData with
  | some data =>
    if st.active then
      let volScale := st.volume / 64
      let leftGain := (255 - st.pan) / 255
      let rightGain := st.pan / 255
      let (vals, pos', act) :=
        renderLoop data st.pitch volScale leftGain rightGain
          st.hasLoop st.loopStart st.loopEnd st.position nFrames
      ({ st with position := pos', active := act },
        vals ++ List.replicate (2 * nFrames - vals.length) 0)
    else (st, List.replicate (2 * nFrames) 0)
  | none => (st, List.replicate (2 * nFrames) 0)

/-! ## Tick-0 event processing (sampler.js 694-747) -/

/-- Semitone count of a step's note against the sample's base note
(sampler.js 702-708): a string goes through `noteToSemitones`, a
number is used as-is, an absent note means 0. -/
def stepSemitone (step : Step) (smp : Sample) : Except SamplerError Int :=
  match step.note with
  | .str s => noteToSemitones s smp.baseNote
  | .num n => pure n
  | .noneF => pure 0

/-- The note-delay tick count of a step:
`(step.effect === 'SD' && step.effectParam) ? step.effectParam : 0`. -/
def stepDelayTicks (step : Step) : Int :=
  match step.effect, step.effectParam with
  | some eff, some p => if eff = "SD" ∧ p ≠ 0 then p else 0
  | _, _ => 0

/-- Processing of a non-empty cell at tick 0 of its row
(sampler.js 694-747), parameterised by `pow2 s = Math.pow(2, s/12)`:
resolve the sample (`SampleNotFound` if unregistered), compute the
semitone and pitch ratio, then either stash a delayed note (`'SD'`
effect) or trigger/retune immediately, updating volume and pan
unconditionally on the immediate path. -/
def applyStep (S : SampleMap) (pow2 : Int → ℚ) (st : ChannelState) (step : Step) :
    Except SamplerError ChannelState :=
  match lookupSample S step.sample with
  | none => .error (.sampleNotFound step.sample)
  | some smp =>
    match stepSemitone step smp with
    | .error e => .error e
    | .ok semitone =>
      let d := stepDelayTicks step
      if 0 < d then
        .ok { st with
          delayedNote := some {
            sample := step.sample, sampleData := smp.data,
            pitch := pow2 semitone, hasLoop := smp.hasLoop,
            loopStart := smp.loopStart,
            loopEnd := smp.loopStart + smp.loopLength,
            volume := step.volume.getD 64, pan := step.pan.getD 128 },
          delayTicks := d }
      else
        let isSameNote :=
          st.active ∧ st.sample = some step.sample ∧ st.pitch = pow2 semitone
        let st1 :=
          if isSameNote then st
          else { st with
            sample := some step.sample, sampleData := some smp.data,
            position := 0, pitch := pow2 semitone,
            hasLoop := smp.hasLoop, loopStart := smp.loopStart,
            loopEnd := smp.loopStart + smp.loopLength, active := true }
        .ok { st1 with volume := step.volume.getD 64, pan := step.pan.getD 128 }

/-- The per-tick delayed-note countdown (sampler.js 750-768): while a
delayed note is pending, decrement its counter; on reaching zero,
trigger the stored note exactly like an immediate one. -/
def delayedCountdown (st : ChannelState) : ChannelState :=
  match st.delayedNote with
  | none => st
  | some dn =>
    if 0 < st.delayTicks then
      let dt := st.delayTicks - 1
      if dt = 0 then
        { st with
          sample := some dn.sample, sampleData := some dn.sampleData,
          position := 0, pitch := dn.pitch, hasLoop := dn.hasLoop,
          loopStart := dn.loopStart, loopEnd := dn.loopEnd,
          volume := dn.volume, pan := dn.pan, active := true,
          delayedNote := none, delayTicks := 0 }
      else { st with delayTicks := dt }
    else st

/-- One channel's processing of one tick (the body of the innermost
loop of `buildPatternBuffers`, sampler.js 689-828): tick-0 event
handling, delayed-note countdown, then tick-buffer rendering. -/
def channelTick (S : SampleMap) (pow2 : Int → ℚ) (tick nFrames : Nat)
    (step? : Option Step) (st : ChannelState) :
    Except SamplerError (ChannelState × List Int) := do
  let st1 ←
    match tick, step? with
    | 0, some step => applyStep S pow2 st step
    | _, _ => pure st
  let st2 := delayedCountdown st1
  pure (renderTick st2 nFrames)

/-! ## Row/tick iteration of `buildPatternBuffers` (sampler.js 684-838) -/

/-- Process one tick for all channels, in channel order.  `i` is the
index of the first state in `sts` within the channel array (the
`steps[channelIndex]` lookup is `undefined`, i.e. no event, past the
end of the row).  Returns updated states and one tick buffer per
channel. -/
def rowTickChannels (S : SampleMap) (pow2 : Int → ℚ) (tick nFrames : Nat)
    (steps : List (Option Step)) :
    Nat → List ChannelState → Except SamplerError (List ChannelState × List (List Int))
  | _, [] => .ok ([], [])
  | i, st :: sts => do
    let (st', buf) ← channelTick S pow2 tick nFrames (steps.getD i none) st
    let (sts', bufs) ← rowTickChannels S pow2 tick nFrames steps (i + 1) sts
    pure (st' :: sts', buf :: bufs)

/-- Process the ticks `tick, tick+1, …` of one row (`for (let tick = 0;
tick < speed; tick++)`, fuel counts the remaining ticks).  Returns the
final states and, per channel, the list of tick buffers in order. -/
def rowTicks (S : SampleMap) (pow2 : Int → ℚ) (nFrames : Nat)
    (steps : List (Option Step)) :
    Nat → Nat → List ChannelState →
    Except SamplerError (List ChannelState × List (List (List Int)))
  | _, 0, sts => .ok (sts, sts.map fun _ => [])
  | tick, fuel + 1, sts => do
    let (sts1, bufs) ← rowTickChannels S pow2 tick nFrames steps 0 sts
    let (sts2, rest) ← rowTicks S pow2 nFrames steps (tick + 1) fuel sts1
    pure (sts2, List.zipWith (· :: ·) bufs rest)

/-- Process all rows of the pattern (`for (const row of pattern)`),
threading the channel states; per channel the tick buffers of all rows
are concatenated in order. -/
def buildRows (S : SampleMap) (pow2 : Int → ℚ) (nFrames speedTicks : Nat) :
    List (List (Option Step)) → List ChannelState →
    Except SamplerError (List ChannelState × List (List (List Int)))
  | [], sts => .ok (sts, sts.map fun _ => [])
  | row :: rows, sts => do
    let (sts1, bufs) ← rowTicks S pow2 nFrames row 0 speedTicks sts
    let (sts2, rest) ← buildRows S pow2 nFrames speedTicks rows sts1
    pure (sts2, List.zipWith (· ++ ·) bufs rest)

/-! ## Channel mixing (`mixChannels`, sampler.js 851-899) -/

/-- Total byte length (in 16-bit units) of one channel's tick buffers
(`channelBuffer.reduce((sum, buf) => sum + buf.length, 0)`). -/
def chanTotal (bufs : List (List Int)) : Nat := (bufs.map List.length).sum

/-- Mix one channel's (concatenated) tick data into the accumulated
mix buffer: per position, `existing + addition * scaleFactor`, clamped
and stored back (sampler.js 878-888).  Additions beyond the mix
buffer's length are dropped (the `break` guard); positions beyond the
channel's data keep their accumulated value. -/
def mixInto (scale : ℚ) : List Int → List Int → List Int
  | acc, [] => acc
  | [], _ => []
  | e :: acc, x :: xs => mixSample scale e x :: mixInto scale acc xs

/-- The mixer `mixChannels(channelBuffers)` (sampler.js 851-899), parameterised
by `sqrtQ n = Math.sqrt(n)`: allocate a zeroed buffer of the longest
channel's total length, then fold every channel in with the scale
factor `0.6 / Math.sqrt(channelCount)`. -/
def mixChannels (sqrtQ : Nat → ℚ) (channelBuffers : List (List (List Int))) : List Int :=
  let maxLength := channelBuffers.foldl (fun m bufs => max m (chanTotal bufs)) 0
  let channelCount := channelBuffers.length
  let scaleFactor : ℚ := (3 / 5) / sqrtQ channelCount
  channelBuffers.foldl (fun acc bufs => mixInto scaleFactor acc bufs.flatten)
    (List.replicate maxLength 0)

/-! ## `Sampler.playPattern` (sampler.js 613-969) -/

/-- The options record of `playPattern`.  `rep` is the source's
`repeat` option (a Lean keyword).  `Option` fields model absent
(`undefined`) options; the JS `||`-defaults also replace an explicit
0, which the `eff…` accessors reproduce. -/
structure PlayOptions where
  bpm : Option ℚ
  speed : Option Int
  tempo : Option ℚ
  rep : Option Int
  deriving DecidableEq, Repr

/-- The defaulted speed `options.speed || 6`. -/
def effSpeed (o : PlayOptions) : Int :=
  match o.speed with
  | some s => if s = 0 then 6 else s
  | none => 6

/-- The defaulted tempo `options.tempo || 125`. -/
def effTempo (o : PlayOptions) : ℚ :=
  match o.tempo with
  | some t => if t = 0 then 125 else t
  | none => 125

/-- The defaulted repeat count `options.repeat || 1`. -/
def effRepeat (o : PlayOptions) : Int :=
  match o.rep with
  | some r => if r = 0 then 1 else r
  | none => 1

/-- The missing/zero check `!options.bpm` that throws
`bpm option is required`. -/
def bpmMissing (o : PlayOptions) : Bool :=
  match o.bpm with
  | some b => b = 0
  | none => true

/-- The channel count `numChannels`: the maximum row width, at least 4
(sampler.js 644-651). -/
def patternChannels (pattern : List (List (Option Step))) : Nat :=
  pattern.foldl (fun n row => max n row.length) 4

/-- The frames per tick, `tickDurationSamples = Math.floor(44100 *
tickDuration)` with
`tickDuration = 2.5 / tempo` (sampler.js 637, 678).  `Buffer.alloc`
would throw on a negative size (negative tempo); `Int.toNat` clamps
that corner to 0. -/
def tickFrames (tempo : ℚ) : Nat := (Rat.floor ((44100 : ℚ) * (5 / 2 / tempo))).toNat

/-- The result of a `playPattern` call: the finite-repeat path returns
one complete mixed buffer; `repeat = -1` returns a playback handle
that plays its (once-rendered, once-mixed) pattern buffer in an
endless loop until `stop()`. -/
inductive PlayResult where
  | finite (buffer : List Int)
  | infinite (loopBuffer : List Int)
  deriving DecidableEq, Repr

/-- The engine entry point `Sampler.playPattern(pattern, options)`
(sampler.js 613-969),
parameterised by the two irrational library functions (`pow2` for
`Math.pow(2, ·/12)`, `sqrtQ` for `Math.sqrt`): check `bpm`, derive
timing, build the per-channel tick buffers once, then mix either the
`repeat`-fold concatenation (finite path) or the single pattern
buffer (infinite path).  Rows are modelled as lists; the source's
wrapping of a non-array row (`Array.isArray(row) ? row : [row]`) is
subsumed by the type. -/
def playPattern (S : SampleMap) (pow2 : Int → ℚ) (sqrtQ : Nat → ℚ)
    (pattern : List (List (Option Step))) (o : PlayOptions) :
    Except SamplerError PlayResult := do
  if bpmMissing o then .error .bpmRequired
  else
    let (_, bufs) ← buildRows S pow2 (tickFrames (effTempo o)) (effSpeed o).toNat
      pattern (List.replicate (patternChannels pattern) initialChannelState)
    if effRepeat o = -1 then
      pure (.infinite (mixChannels sqrtQ bufs))
    else
      pure (.finite (mixChannels sqrtQ
        (bufs.map fun chBufs => (List.replicate (effRepeat o).toNat chBufs).flatten)))

/-! ## S3M module-to-pattern adapter (`S3mLoader.convertPatterns`,
s3m-loader.js 404-516) -/

/-- A parsed S3M pattern cell (`_readPatterns`, s3m-loader.js 286-292):
note byte (octave/semitone nibbles), instrument index (1-based),
volume column, effect and effect parameter, each possibly absent. -/
structure S3mCell where
  note : Option Nat
  instrument : Option Nat
  volume : Option Nat
  effect : Option Nat
  effectParam : Option Nat
  deriving DecidableEq, Repr

/-- One entry of the 32-byte channel-settings table
(s3m-loader.js 88-95). -/
structure S3mChannelSetting where
  enabled : Bool
  pan : ℚ
  deriving DecidableEq, Repr

/-- The instrument fields `convertPatterns` reads: default volume and
`c4speed` (s3m-loader.js 185-197). -/
structure S3mInstrument where
  volume : Nat
  c4speed : Nat
  deriving DecidableEq, Repr

/-- The parts of a loaded `S3mLoader` that `convertPatterns` consumes. -/
structure S3mModule where
  channelSettings : List S3mChannelSetting
  instruments : List S3mInstrument
  patterns : List (List (List (Option S3mCell)))
  orders : List Nat
  deriving DecidableEq, Repr

/-- The note-delay test `hasNoteDelay`: effect `S` (0x13) with subcommand `D` (high nibble
8) and a nonzero low nibble (s3m-loader.js 434-436).  A `null`
effect parameter shifts to 0 in JS, so it never matches. -/
def hasNoteDelay (c : S3mCell) : Bool :=
  decide (c.effect = some 0x13) &&
    match c.effectParam with
    | some p => decide (p >>> 4 = 0x8 ∧ 0 < p &&& 0xF)
    | none => false

/-- The volume-resolution block of `convertPatterns`
(s3m-loader.js 476-497), as a function from the carried per-channel
volume state, the instrument default and the cell's volume column and
effect to `(finalVolume, new carried state)`:
1. start from the carried channel volume;
2. a volume column value ≤ 64 overwrites it;
3. effect `C` (0x0C) with a parameter overwrites with
   `min(param, 64)`;
4. if the carried state now reads 64, the cell has no volume column
   and the effect is not 0x0C, the instrument default is used. -/
def resolveVolume (carried instVolume : Nat) (cellVolume : Option Nat)
    (effect effectParam : Option Nat) : Nat × Nat :=
  let fv := carried
  let (fv, cv) :=
    match cellVolume with
    | some v => if v ≤ 64 then (v, v) else (fv, carried)
    | none => (fv, carried)
  let (fv, cv) :=
    match effect, effectParam with
    | some e, some p => if e = 0x0C then (min p 64, min p 64) else (fv, cv)
    | _, _ => (fv, cv)
  if cv = 64 ∧ cellVolume = none ∧ effect ≠ some 0x0C then (instVolume, instVolume)
  else (fv, cv)

/-- Conversion of one `(row, channel)` slot (the body of the
`for (let ch = 0; ch < 32; ch++)` loop, s3m-loader.js 422-509),
parameterised by `nn nb c4speed`, the note-name computation of
s3m-loader.js 447-469 (period → frequency → `Math.log2` → name, a
transcendental re-derivation no claim depends on).  Returns the
emitted slot and the updated `channelVolume` array. -/
def convertCell (m : S3mModule) (nn : Nat → Nat → String) (vols : List Nat)
    (ch : Nat) (cell? : Option S3mCell) : Option Step × List Nat :=
  -- `cs` is `this.channelSettings[ch]`, `inst` is `this.instruments[cell.instrument - 1]`
  if ¬ (m.channelSettings.getD ch { enabled := true, pan := 128 }).enabled then (none, vols)
  else
    match cell? with
    | some c =>
      match c.instrument, c.note with
      | some i, some nb =>
        if i = 0 then (none, vols)   -- JS falsy instrument number
        else if hasNoteDelay c then (none, vols)  -- delayed notes are skipped
        else
          (some { sample := "s3m_inst_" ++ toString (i - 1),
                  note := .str (nn nb (m.instruments.getD (i - 1)
                    { volume := 0, c4speed := 0 }).c4speed),
                  volume := some ((resolveVolume (vols.getD ch 64)
                    (m.instruments.getD (i - 1) { volume := 0, c4speed := 0 }).volume
                    c.volume c.effect c.effectParam).1 : ℚ),
                  pan := some (m.channelSettings.getD ch
                    { enabled := true, pan := 128 }).pan,
                  effect := none, effectParam := none },
            vols.set ch (resolveVolume (vols.getD ch 64)
              (m.instruments.getD (i - 1) { volume := 0, c4speed := 0 }).volume
              c.volume c.effect c.effectParam).2)
      | _, _ => (none, vols)
    | none => (none, vols)

/-- The 32-channel loop of one row, threading the `channelVolume`
state; `ch` is the next channel index, the fuel its remaining count. -/
def convertChannels (m : S3mModule) (nn : Nat → Nat → String)
    (row : List (Option S3mCell)) :
    Nat → Nat → List Nat → List (Option Step) × List Nat
  | _, 0, vols => ([], vols)
  | ch, fuel + 1, vols =>
    let (slot, vols1) := convertCell m nn vols ch (row.getD ch none)
    let (rest, vols2) := convertChannels m nn row (ch + 1) fuel vols1
    (slot :: rest, vols2)

/-- The row loop of one source pattern. -/
def convertRows (m : S3mModule) (nn : Nat → Nat → String) :
    List (List (Option S3mCell)) → List Nat →
    List (List (Option Step)) × List Nat
  | [], vols => ([], vols)
  | row :: rows, vols =>
    let (chs, vols1) := convertChannels m nn row 0 32 vols
    let (rest, vols2) := convertRows m nn rows vols1
    (chs :: rest, vols2)

/-- The order-position loop (`for (let pos = startOrder; pos <
endOrder; pos++)`), fuel = remaining positions. -/
def convertOrders (m : S3mModule) (nn : Nat → Nat → String) :
    Nat → Nat → List Nat → List (List (Option Step)) × List Nat
  | _, 0, vols => ([], vols)
  | pos, fuel + 1, vols =>
    let patternIndex := m.orders.getD pos 0
    let s3mPattern := m.patterns.getD patternIndex []
    let (rows1, vols1) := convertRows m nn s3mPattern vols
    let (rest, vols2) := convertOrders m nn (pos + 1) fuel vols1
    (rows1 ++ rest, vols2)

/-- The adapter `S3mLoader.convertPatterns(startOrder, numOrders)`
(s3m-loader.js 404-516): flatten the patterns of the order range
`[startOrder, min(startOrder + numOrders, orders.length))` into one
engine pattern, with the 32-entry `channelVolume` array initialised
to 64. -/
def convertPatterns (m : S3mModule) (nn : Nat → Nat → String)
    (startOrder numOrders : Nat) : List (List (Option Step)) :=
  (convertOrders m nn startOrder
    (min (startOrder + numOrders) m.orders.length - startOrder)
    (List.replicate 32 64)).1

/-! ## MOD initial speed/tempo scan (`ModLoader._scanInitialTempo`) -/

/-- A parsed MOD pattern cell (`_parsePatterns`): sample number,
12-bit period, effect nibble, effect parameter byte. -/
structure ModCell where
  sample : Nat
  period : Nat
  effect : Nat
  effectParam : Nat
  deriving DecidableEq, Repr

/-- The `for (let ch = 0; ch < 4; ch++)` scan of one row (applied to
`row.take 4`): first cell with effect `0xF` and a nonzero parameter. -/
def scanChannels : List ModCell → Option ModCell
  | [] => none
  | c :: cs =>
    if c.effect = 0xF ∧ 0 < c.effectParam then some c else scanChannels cs

/-- The row loop of `_scanInitialTempo` over one pattern. -/
def scanRows : List (List ModCell) → Option ModCell
  | [] => none
  | r :: rs =>
    match scanChannels (r.take 4) with
    | some c => some c
    | none => scanRows rs

/-- The pattern loop: scan the patterns at play-order positions
`p, p+1, …` (`patternTable[p]`), fuel = `patternsToScan` positions
remaining, stopping at the first hit. -/
def scanOrderPositions (table : List Nat) (patterns : List (List (List ModCell))) :
    Nat → Nat → Option ModCell
  | _, 0 => none
  | p, fuel + 1 =>
    match scanRows (patterns.getD (table.getD p 0) []) with
    | some c => some c
    | none => scanOrderPositions table patterns (p + 1) fuel

/-- The scan `ModLoader._scanInitialTempo()`: starting from the defaults
`initialSpeed = 6`, `initialTempo = 125`, scan
`Math.min(3, patterns.length)` play-order positions for the first
`0xF`-effect cell with a nonzero parameter; a parameter < 32 sets the
speed, otherwise the tempo.  Returns `(initialSpeed, initialTempo)`. -/
def scanInitialTempo (table : List Nat) (patterns : List (List (List ModCell))) :
    Nat × Nat :=
  match scanOrderPositions table patterns 0 (min 3 patterns.length) with
  | some c => if c.effectParam < 32 then (c.effectParam, 125) else (6, c.effectParam)
  | none => (6, 125)

/-- The cells visited by the scan, flattened in visit order (first
`min(3, patterns.length)` play-order positions, rows in order, first
4 channels of each row). -/
def scanCells (table : List Nat) (patterns : List (List (List ModCell))) :
    List ModCell :=
  (List.range (min 3 patterns.length)).flatMap fun p =>
    (patterns.getD (table.getD p 0) []).flatMap fun row => row.take 4

/-- The scan as claim C4 words it (no nonzero-parameter requirement):
the FIRST cell with effect `0xF` decides, its parameter < 32 setting
the speed and ≥ 32 the tempo.  This is the claimed behaviour, stated
for comparison with `scanInitialTempo`. -/
def scanInitialTempoClaimed (table : List Nat)
    (patterns : List (List (List ModCell))) : Nat × Nat :=
  match (scanCells table patterns).find? (fun c => c.effect == 0xF) with
  | some c => if c.effectParam < 32 then (c.effectParam, 125) else (6, c.effectParam)
  | none => (6, 125)

/-- The mixed audio buffer carried by a `playPattern` result (the
finite buffer, or the buffer the infinite loop replays). -/
def PlayResult.buffer : PlayResult → List Int
  | .finite b => b
  | .infinite b => b

/-! ## Concrete fixtures used by witnesses and counterexamples -/

/-- A one-sample store: four PCM values, base note C-4, no loop. -/
def testSamples : SampleMap :=
  [("kick", { data := [100, -50, 25, 0], baseNote := "C-4",
              loopStart := 0, loopLength := 0 })]

/-- A plain full-volume, centre-pan C-4 cell on the registered sample. -/
def testStep : Step :=
  { sample := "kick", note := .str "C-4", volume := some 64,
    pan := some 128, effect := none, effectParam := none }

/-- A one-row pattern holding only `testStep`. -/
def testPattern : List (List (Option Step)) := [[some testStep]]

/-- Timing options chosen so one tick is exactly one output frame
(`tickFrames 110250 = 1`) and one row is one tick. -/
def testOptions : PlayOptions :=
  { bpm := some 1, speed := some 1, tempo := some 110250, rep := none }

/-- A cell carrying the `'SD'` note-delay effect with 2 delay ticks,
volume 32 and pan 200. -/
def delayStep : Step :=
  { sample := "kick", note := .str "C-4", volume := some 32,
    pan := some 200, effect := some "SD", effectParam := some 2 }

/-- The channel state after `delayStep` is processed at tick 0 of a
1-tick row: the note sits in `delayedNote` with one tick left, the
audible state untouched. -/
def c9Delayed : DelayedNote :=
  { sample := "kick", sampleData := [100, -50, 25, 0], pitch := 1,
    hasLoop := false, loopStart := 0, loopEnd := 0, volume := 32, pan := 200 }

/-- The channel state holding `c9Delayed` with one tick left. -/
def c9Pending : ChannelState :=
  { initialChannelState with delayedNote := some c9Delayed, delayTicks := 1 }

/-- The channel state right after the pending note of `c9Pending`
triggers — during a row whose cell is empty. -/
def c9Triggered : ChannelState :=
  { sample := some "kick", sampleData := some [100, -50, 25, 0],
    position := 1, pitch := 1, volume := 32, pan := 200,
    hasLoop := false, loopStart := 0, loopEnd := 0, active := true,
    delayedNote := none, delayTicks := 0 }

/-- A MOD cell with effect `0xF` and parameter 0. -/
def c4Cell : ModCell := { sample := 0, period := 0, effect := 0xF, effectParam := 0 }

/-- A single stored pattern whose only cell is `c4Cell`. -/
def c4Patterns : List (List (List ModCell)) := [[[c4Cell]]]

/-- A play order selecting that pattern first. -/
def c4Table : List Nat := [0]

/-- A concrete stand-in for the S3M note-name computation in closed
statements. -/
def nnC4 : Nat → Nat → String := fun _ _ => "C-4"

/-- The channel-settings table of the S3M fixtures: 32 enabled,
centre-panned channels. -/
def s3mTestSettings : List S3mChannelSetting :=
  List.replicate 32 { enabled := true, pan := 128 }

/-- An S3M cell playing instrument 1 with an explicit volume column
of 64. -/
def s3mCellVol64 : S3mCell :=
  { note := some 0x40, instrument := some 1, volume := some 64,
    effect := none, effectParam := none }

/-- An S3M cell playing instrument 1 with no volume information. -/
def s3mCellNoVol : S3mCell :=
  { note := some 0x40, instrument := some 1, volume := none,
    effect := none, effectParam := none }

/-- A 2-row, one-order S3M module: the same channel plays with an
explicit volume-column 64 on row 0 and with no volume on row 1; the
instrument's default volume is 32. -/
def s3mTestModule : S3mModule :=
  { channelSettings := s3mTestSettings,
    instruments := [{ volume := 32, c4speed := 8363 }],
    patterns := [[(some s3mCellVol64) :: List.replicate 31 none,
                  (some s3mCellNoVol) :: List.replicate 31 none]],
    orders := [0] }

/-- An S3M cell flagged with the note-delay effect `SD3`
(effect `S` = 0x13, parameter 0x83). -/
def s3mDelayCell : S3mCell :=
  { note := some 0x40, instrument := some 1, volume := some 40,
    effect := some 0x13, effectParam := some 0x83 }

/-- A one-row S3M module whose only cell is the delay-flagged
`s3mDelayCell`. -/
def s3mDelayModule : S3mModule :=
  { channelSettings := s3mTestSettings,
    instruments := [{ volume := 32, c4speed := 8363 }],
    patterns := [[(some s3mDelayCell) :: List.replicate 31 none]],
    orders := [0] }

/-- A cell referencing the UNREGISTERED sample name `"ghost"`. -/
def ghostStep : Step :=
  { sample := "ghost", note := .num 0, volume := none, pan := none,
    effect := none, effectParam := none }

/-- A one-row pattern whose only cell references an unregistered
sample. -/
def ghostPattern : List (List (Option Step)) := [[some ghostStep]]

/-- A cell on the registered sample whose note string `"H-4"` does not
match the note regex. -/
def badNoteStep : Step :=
  { sample := "kick", note := .str "H-4", volume := none, pan := none,
    effect := none, effectParam := none }

/-- A pattern whose row 0 holds the malformed-note cell and whose
row 1 references the unregistered sample `"ghost"`. -/
def c5Pattern : List (List (Option Step)) := [[some badNoteStep], [some ghostStep]]

/-- A concrete stand-in for `Math.pow(2, ·/12)` in closed statements. -/
def pow2one : Int → ℚ := fun _ => 1

/-- A concrete stand-in for `Math.sqrt` in closed statements
(correct at the 4-channel count the fixtures use). -/
def sqrtTwo : Nat → ℚ := fun _ => 2

/-! ## Helper lemmas on `Except` binds -/

theorem error_bind {ε α β : Type _} (e : ε) (f : α → Except ε β) :
    (Except.error e >>= f) = Except.error e := rfl

theorem ok_bind {ε α β : Type _} (a : α) (f : α → Except ε β) :
    (Except.ok a >>= f) = f a := rfl

theorem exceptBind_eq_ok {ε α β : Type _} {x : Except ε α} {f : α → Except ε β} {y : β} :
    (x >>= f) = .ok y ↔ ∃ a, x = .ok a ∧ f a = .ok y := by
  cases x with
  | ok a => simp [ok_bind]
  | error e => simp [error_bind]

theorem exceptBind_eq_error {ε α β : Type _} {x : Except ε α} {f : α → Except ε β} {e : ε} :
    (x >>= f) = .error e ↔ x = .error e ∨ ∃ a, x = .ok a ∧ f a = .error e := by
  cases x with
  | ok a => simp [ok_bind]
  | error e' => simp [error_bind]

/-! ## C1 — render determinism -/

/-- C1: for every sample store, pattern and timing configuration
(including `repeat`), two renders through `playPattern` produce
identical results: the engine is a pure function of its inputs — the
embedded mixer consults no randomness or external state. -/
theorem c1_render_deterministic (S : SampleMap) (pow2 : Int → ℚ) (sqrtQ : Nat → ℚ)
    (pattern : List (List (Option Step))) (o : PlayOptions) :
    playPattern S pow2 sqrtQ pattern o = playPattern S pow2 sqrtQ pattern o := rfl

/-! ## C10 — `repeat = 0` silently becomes the default 1 -/

/-- C10: calling `playPattern` with `repeat = 0` is indistinguishable
from calling it with `repeat = 1` — `options.repeat || 1` replaces the
falsy 0 by the default, so no error is raised and the pattern renders
exactly once. -/
theorem c10_repeat_zero_renders_once (S : SampleMap) (pow2 : Int → ℚ) (sqrtQ : Nat → ℚ)
    (pattern : List (List (Option Step))) (o : PlayOptions) :
    playPattern S pow2 sqrtQ pattern { o with rep := some 0 }
      = playPattern S pow2 sqrtQ pattern { o with rep := some 1 } := rfl

/-! ## C6 — repeat validation -/

theorem mixInto_nil (scale : ℚ) (l : List Int) : mixInto scale [] l = [] := by
  cases l <;> rfl

theorem foldl_max_chanTotal_nil (l : List (List (List Int))) (m : Nat) :
    ((l.map fun _ => ([] : List (List Int))).foldl
      (fun m bufs => max m (chanTotal bufs)) m) = m := by
  induction l generalizing m with
  | nil => rfl
  | cons x xs ih => simpa [chanTotal] using ih m

theorem foldl_mixInto_nil (scale : ℚ) (l : List (List (List Int))) :
    (l.foldl (fun acc bufs => mixInto scale acc bufs.flatten) []) = [] := by
  induction l with
  | nil => rfl
  | cons x xs ih => simpa [mixInto_nil] using ih

/-- Mixing channels whose buffers are all empty yields the empty
output buffer. -/
theorem mixChannels_all_nil (sqrtQ : Nat → ℚ) (l : List (List (List Int))) :
    mixChannels sqrtQ (l.map fun _ => []) = [] := by
  unfold mixChannels
  rw [foldl_max_chanTotal_nil]
  exact foldl_mixInto_nil _ _

/-- Running `playPattern` once the `bpm` check passed and the pattern
buffers built: the result is the mixed infinite-loop buffer for
`repeat = -1` and the mixed `repeat`-fold concatenation otherwise. -/
theorem playPattern_run (S : SampleMap) (pow2 : Int → ℚ) (sqrtQ : Nat → ℚ)
    (pattern : List (List (Option Step))) (o : PlayOptions)
    (hb : bpmMissing o = false) {sts : List ChannelState} {bufs : List (List (List Int))}
    (hB : buildRows S pow2 (tickFrames (effTempo o)) (effSpeed o).toNat pattern
      (List.replicate (patternChannels pattern) initialChannelState) = .ok (sts, bufs)) :
    playPattern S pow2 sqrtQ pattern o =
      if effRepeat o = -1 then .ok (.infinite (mixChannels sqrtQ bufs))
      else .ok (.finite (mixChannels sqrtQ
        (bufs.map fun chBufs => (List.replicate (effRepeat o).toNat chBufs).flatten))) := by
  unfold playPattern
  rw [if_neg (by simp [hb]), hB, ok_bind]
  rfl

/-- Inversion: a successful `playPattern` call passed the `bpm` check
and built its pattern buffers successfully. -/
theorem playPattern_ok_inv (S : SampleMap) (pow2 : Int → ℚ) (sqrtQ : Nat → ℚ)
    (pattern : List (List (Option Step))) (o : PlayOptions) {r : PlayResult}
    (h : playPattern S pow2 sqrtQ pattern o = .ok r) :
    bpmMissing o = false ∧ ∃ sts bufs,
      buildRows S pow2 (tickFrames (effTempo o)) (effSpeed o).toNat pattern
        (List.replicate (patternChannels pattern) initialChannelState) = .ok (sts, bufs) := by
  unfold playPattern at h
  by_cases hb : bpmMissing o
  · rw [if_pos (by simp [hb])] at h; exact absurd h (by simp)
  · refine ⟨by simpa using hb, ?_⟩
    rw [if_neg (by simp [hb])] at h
    rcases hB : buildRows S pow2 (tickFrames (effTempo o)) (effSpeed o).toNat pattern
        (List.replicate (patternChannels pattern) initialChannelState) with e | ⟨sts, bufs⟩
    · rw [hB, error_bind] at h; exact absurd h (by simp)
    · exact ⟨sts, bufs, rfl⟩

set_option maxRecDepth 10000 in
unseal Rat.add Rat.sub Rat.mul Rat.inv in
/-- C6 counterexample: `playPattern` performs no validation of the
`repeat` option.  At a concrete registered pattern, `repeat = 0`
succeeds (rendering once) and `repeat = -2` succeeds with an empty
output buffer; neither call fails — and the engine has no
`InvalidArgument` error at all, contradicting the claim that any
repeat value outside the valid set fails. -/
theorem c6_counterexample :
    playPattern testSamples pow2one sqrtTwo testPattern { testOptions with rep := some 0 }
      = .ok (.finite [3824, 3855])
    ∧ playPattern testSamples pow2one sqrtTwo testPattern { testOptions with rep := some (-2) }
      = .ok (.finite []) := by decide

/-- C6 amended: `playPattern` does not validate `repeat`.  A `repeat`
of 0 (falsy) is silently replaced by the default 1, and a negative
`repeat` other than -1 renders zero copies of the pattern, returning
an empty buffer — no error is raised in either case. -/
theorem c6_amended (S : SampleMap) (pow2 : Int → ℚ) (sqrtQ : Nat → ℚ)
    (pattern : List (List (Option Step))) (o : PlayOptions) :
    (playPattern S pow2 sqrtQ pattern { o with rep := some 0 }
       = playPattern S pow2 sqrtQ pattern { o with rep := some 1 })
    ∧ (∀ (N : Int), N < 0 → N ≠ -1 → ∀ b1,
        playPattern S pow2 sqrtQ pattern { o with rep := some 1 } = .ok (.finite b1) →
        playPattern S pow2 sqrtQ pattern { o with rep := some N } = .ok (.finite [])) := by
  refine ⟨rfl, fun N hN hN1 b1 h1 => ?_⟩
  obtain ⟨hb, sts, bufs, hB⟩ := playPattern_ok_inv _ _ _ _ _ h1
  have hrepN : effRepeat { o with rep := some N } = N := by
    simp only [effRepeat]
    rw [if_neg (by omega)]
  rw [playPattern_run S pow2 sqrtQ pattern { o with rep := some N } hb hB,
    if_neg (by rw [hrepN]; exact hN1), hrepN,
    Int.toNat_of_nonpos (le_of_lt hN)]
  have hmap : (bufs.map fun chBufs => (List.replicate 0 chBufs).flatten)
      = bufs.map fun _ => [] := by simp
  rw [hmap, mixChannels_all_nil]

set_option maxRecDepth 10000 in
unseal Rat.add Rat.sub Rat.mul Rat.inv in
/-- Witness for the amended C6, at the concrete fixture and
`repeat = -2`. -/
theorem c6_amended_witness :
    playPattern testSamples pow2one sqrtTwo testPattern { testOptions with rep := some (-2) }
      = .ok (.finite []) :=
  (c6_amended testSamples pow2one sqrtTwo testPattern testOptions).2 (-2) (by decide)
    (by decide) [3824, 3855] (by decide)

/-! ## C7 — repeat scaling -/

theorem mixInto_length (scale : ℚ) (acc add : List Int) :
    (mixInto scale acc add).length = acc.length := by
  induction acc generalizing add with
  | nil => cases add <;> rfl
  | cons e acc ih => cases add with
    | nil => rfl
    | cons x xs => simpa [mixInto] using ih xs

theorem foldl_mixInto_length (scale : ℚ) (l : List (List (List Int))) (acc : List Int) :
    (l.foldl (fun acc bufs => mixInto scale acc bufs.flatten) acc).length = acc.length := by
  induction l generalizing acc with
  | nil => rfl
  | cons x xs ih => simpa [mixInto_length] using ih (mixInto scale acc x.flatten)

/-- The mixed output buffer is exactly as long as the longest
channel's total buffer length. -/
theorem mixChannels_length (sqrtQ : Nat → ℚ) (cb : List (List (List Int))) :
    (mixChannels sqrtQ cb).length
      = cb.foldl (fun m bufs => max m (chanTotal bufs)) 0 := by
  unfold mixChannels
  rw [foldl_mixInto_length, List.length_replicate]

theorem chanTotal_append (a b : List (List Int)) :
    chanTotal (a ++ b) = chanTotal a + chanTotal b := by
  simp [chanTotal]

/-- Repeating a channel's tick buffers `n` times multiplies its total
length by `n`. -/
theorem chanTotal_replicate (n : Nat) (ch : List (List Int)) :
    chanTotal ((List.replicate n ch).flatten) = n * chanTotal ch := by
  induction n with
  | zero => simp [chanTotal]
  | succ k ih =>
    rw [List.replicate_succ, List.flatten_cons, chanTotal_append, ih]
    ring

theorem natMulMax (k a b : Nat) : k * max a b = max (k * a) (k * b) := by
  rcases le_total a b with h | h
  · rw [max_eq_right h, max_eq_right (mul_le_mul_left' h k)]
  · rw [max_eq_left h, max_eq_left (mul_le_mul_left' h k)]

theorem foldl_max_mul (k : Nat) (l : List (List (List Int))) (m : Nat) :
    l.foldl (fun m bufs => max m (k * chanTotal bufs)) (k * m)
      = k * l.foldl (fun m bufs => max m (chanTotal bufs)) m := by
  induction l generalizing m with
  | nil => rfl
  | cons x xs ih => simpa [natMulMax] using ih (max m (chanTotal x))

/-- C7: for every sample store, pattern and timing configuration and
every positive `N`, if the render with `repeat = 1` produces a finite
buffer then the render with `repeat = N` produces a finite buffer of
exactly `N` times its length (the channel tick buffers are built once
and concatenated `N`-fold before mixing). -/
theorem c7_repeat_scaling (S : SampleMap) (pow2 : Int → ℚ) (sqrtQ : Nat → ℚ)
    (pattern : List (List (Option Step))) (o : PlayOptions) (N : Int) (hN : 0 < N)
    (b1 : List Int)
    (h1 : playPattern S pow2 sqrtQ pattern { o with rep := some 1 } = .ok (.finite b1)) :
    ∃ bN, playPattern S pow2 sqrtQ pattern { o with rep := some N } = .ok (.finite bN)
      ∧ bN.length = N.toNat * b1.length := by
  obtain ⟨hb, sts, bufs, hB⟩ := playPattern_ok_inv _ _ _ _ _ h1
  have hrep1 : effRepeat { o with rep := some 1 } = 1 := rfl
  have hrun1 := playPattern_run S pow2 sqrtQ pattern { o with rep := some 1 } hb hB
  rw [hrep1] at hrun1
  rw [if_neg (by decide)] at hrun1
  rw [hrun1] at h1
  have hb1 : b1 = mixChannels sqrtQ
      (bufs.map fun chBufs => (List.replicate (1 : Int).toNat chBufs).flatten) := by
    have := h1.symm
    simpa using this
  have hrepN : effRepeat { o with rep := some N } = N := by
    simp only [effRepeat]
    rw [if_neg (by omega)]
  have hrunN := playPattern_run S pow2 sqrtQ pattern { o with rep := some N } hb hB
  rw [hrepN, if_neg (by omega)] at hrunN
  refine ⟨_, hrunN, ?_⟩
  rw [hb1, mixChannels_length, mixChannels_length, List.foldl_map, List.foldl_map]
  have hone : ∀ ch : List (List Int),
      chanTotal ((List.replicate (1 : Int).toNat ch).flatten) = chanTotal ch := by
    intro ch
    simp [chanTotal_replicate]
  have hN' : ∀ ch : List (List Int),
      chanTotal ((List.replicate N.toNat ch).flatten) = N.toNat * chanTotal ch := by
    intro ch
    exact chanTotal_replicate _ _
  simp only [hone, hN']
  have := foldl_max_mul N.toNat bufs 0
  rw [Nat.mul_zero] at this
  exact this

set_option maxRecDepth 10000 in
unseal Rat.add Rat.sub Rat.mul Rat.inv in
/-- Witness for C7 at the concrete fixture with N = 2: the doubled
render is twice as long as the single render. -/
theorem c7_repeat_scaling_witness :
    playPattern testSamples pow2one sqrtTwo testPattern { testOptions with rep := some 2 }
      = .ok (.finite [3824, 3855, 3824, 3855])
    ∧ ([3824, 3855, 3824, 3855] : List Int).length
      = (2 : Int).toNat * ([3824, 3855] : List Int).length := by
  obtain ⟨bN, h, hlen⟩ := c7_repeat_scaling testSamples pow2one sqrtTwo testPattern
    testOptions 2 (by decide) [3824, 3855] (by decide)
  have heval : playPattern testSamples pow2one sqrtTwo testPattern
      { testOptions with rep := some 2 } = .ok (.finite [3824, 3855, 3824, 3855]) := by
    decide
  rw [heval] at h
  injection h with h'
  injection h' with h''
  refine ⟨heval, ?_⟩
  rw [← h''] at hlen
  exact hlen

/-! ## C3 — clipping containment -/

/-- Truncation toward zero stays inside any bounds containing the
argument and zero. -/
theorem jsTrunc_bounds {q : ℚ} (h1 : -32768 ≤ q) (h2 : q ≤ 32767) :
    -32768 ≤ jsTrunc q ∧ jsTrunc q ≤ 32767 := by
  unfold jsTrunc
  by_cases h : 0 ≤ q
  · rw [if_pos h]
    refine ⟨Int.le_floor.mpr (by push_cast; linarith), ?_⟩
    have hf : (⌊q⌋ : ℚ) ≤ 32767 := le_trans (Int.floor_le q) h2
    exact_mod_cast hf
  · rw [if_neg h]
    refine ⟨?_, Int.ceil_le.mpr (by push_cast; linarith)⟩
    have hc : (-32768 : ℚ) ≤ (⌈q⌉ : ℚ) := le_trans h1 (Int.le_ceil q)
    exact_mod_cast hc

/-- Every value produced by the clamp-and-store step lies in the
signed 16-bit range. -/
theorem mixSample_bounds (scale : ℚ) (e x : Int) :
    -32768 ≤ mixSample scale e x ∧ mixSample scale e x ≤ 32767 := by
  unfold mixSample
  refine jsTrunc_bounds ?_ ?_
  · exact le_max_left _ _
  · exact max_le (by norm_num) (min_le_left _ _)

/-- Mixing a channel in preserves the 16-bit range invariant of the accumulated
mix buffer. -/
theorem mixInto_mem_bounds (scale : ℚ) (acc add : List Int)
    (hacc : ∀ y ∈ acc, -32768 ≤ y ∧ y ≤ 32767) :
    ∀ y ∈ mixInto scale acc add, -32768 ≤ y ∧ y ≤ 32767 := by
  induction acc generalizing add with
  | nil =>
    intro y hy
    cases add <;> simp [mixInto] at hy
  | cons e acc ih =>
    intro y hy
    cases add with
    | nil => exact hacc y hy
    | cons x xs =>
      simp only [mixInto, List.mem_cons] at hy
      rcases hy with rfl | hy
      · exact mixSample_bounds scale e x
      · exact ih xs (fun z hz => hacc z (List.mem_cons_of_mem e hz)) y hy

theorem foldl_mixInto_mem_bounds (scale : ℚ) (l : List (List (List Int)))
    (acc : List Int) (hacc : ∀ y ∈ acc, -32768 ≤ y ∧ y ≤ 32767) :
    ∀ y ∈ l.foldl (fun acc bufs => mixInto scale acc bufs.flatten) acc,
      -32768 ≤ y ∧ y ≤ 32767 := by
  induction l generalizing acc with
  | nil => exact hacc
  | cons x xs ih =>
    exact ih (mixInto scale acc x.flatten) (mixInto_mem_bounds scale acc x.flatten hacc)

/-- Every 16-bit value of a mixed output buffer lies in
`[-32768, 32767]`: the zero-initialised buffer satisfies the bound and
each clamped mixing step preserves it. -/
theorem mixChannels_mem_bounds (sqrtQ : Nat → ℚ) (cb : List (List (List Int))) :
    ∀ y ∈ mixChannels sqrtQ cb, -32768 ≤ y ∧ y ≤ 32767 := by
  unfold mixChannels
  refine foldl_mixInto_mem_bounds _ _ _ ?_
  intro y hy
  rw [List.eq_of_mem_replicate hy]
  norm_num

/-- C3: for every sample store, pattern, timing configuration and
values of the float-library parameters, every 16-bit sample of the
mixed output buffer `playPattern` returns lies within
`[-32768, 32767]`: channel contributions are scaled by
`0.6 / Math.sqrt(channelCount)` and each running sum is clamped to the
signed 16-bit range before being stored. -/
theorem c3_clipping_containment (S : SampleMap) (pow2 : Int → ℚ) (sqrtQ : Nat → ℚ)
    (pattern : List (List (Option Step))) (o : PlayOptions) (r : PlayResult)
    (h : playPattern S pow2 sqrtQ pattern o = .ok r) :
    ∀ x ∈ r.buffer, -32768 ≤ x ∧ x ≤ 32767 := by
  obtain ⟨hb, sts, bufs, hB⟩ := playPattern_ok_inv _ _ _ _ _ h
  rw [playPattern_run S pow2 sqrtQ pattern o hb hB] at h
  by_cases hrep : effRepeat o = -1
  · rw [if_pos hrep] at h
    obtain rfl : r = .infinite (mixChannels sqrtQ bufs) := by
      injection h with h'; exact h'.symm
    exact mixChannels_mem_bounds sqrtQ bufs
  · rw [if_neg hrep] at h
    obtain rfl : r = .finite (mixChannels sqrtQ
        (bufs.map fun chBufs => (List.replicate (effRepeat o).toNat chBufs).flatten)) := by
      injection h with h'; exact h'.symm
    exact mixChannels_mem_bounds sqrtQ _

set_option maxRecDepth 10000 in
unseal Rat.add Rat.sub Rat.mul Rat.inv in
/-- Witness for C3: a concrete render succeeds and the bound theorem
applies to a sample of its output. -/
theorem c3_clipping_containment_witness :
    -32768 ≤ (3824 : Int) ∧ (3824 : Int) ≤ 32767 :=
  c3_clipping_containment testSamples pow2one sqrtTwo testPattern testOptions
    (.finite [3824, 3855]) (by decide) 3824 (by decide)

/-! ## C9 — empty cells and channel state -/

set_option maxRecDepth 10000 in
unseal Rat.add Rat.sub Rat.mul Rat.inv in
/-- C9 counterexample: a pending delayed note refutes the claim that a
null cell leaves the channel's sample, pitch, volume, pan and active
state unchanged.  With speed 1, a cell with effect `SD2` on one row
leaves the state `c9Pending` (volume still 64, inactive); processing
the NEXT row's `null` cell triggers the delayed note: volume becomes
32, pan 200, the channel turns active and starts playing — none of
which is position advance or deactivation on sample exhaustion. -/
theorem c9_counterexample :
    channelTick testSamples pow2one 0 1 (some delayStep) initialChannelState
      = .ok (c9Pending, [0, 0])
    ∧ channelTick testSamples pow2one 0 1 none c9Pending
      = .ok (c9Triggered, [2760, 10039])
    ∧ c9Pending.volume = 64 ∧ c9Triggered.volume = 32
    ∧ c9Pending.active = false ∧ c9Triggered.active = true := by decide

/-- C9 amended: processing a `null`/absent cell leaves the channel's
sample, pitch ratio, volume, pan, loop fields and pending-delay slot
unchanged and can only deactivate (never activate) the channel —
PROVIDED no delayed note is pending on that channel.  (With a pending
delayed note, its trigger may rewrite the whole audible state on a
null-cell row, as the counterexample shows.) -/
theorem renderTick_preserves (st : ChannelState) (n : Nat) :
    (renderTick st n).1.sample = st.sample
    ∧ (renderTick st n).1.sampleData = st.sampleData
    ∧ (renderTick st n).1.pitch = st.pitch
    ∧ (renderTick st n).1.volume = st.volume
    ∧ (renderTick st n).1.pan = st.pan
    ∧ (renderTick st n).1.hasLoop = st.hasLoop
    ∧ (renderTick st n).1.loopStart = st.loopStart
    ∧ (renderTick st n).1.loopEnd = st.loopEnd
    ∧ (renderTick st n).1.delayedNote = st.delayedNote
    ∧ (renderTick st n).1.delayTicks = st.delayTicks
    ∧ ((renderTick st n).1.active = true → st.active = true) := by
  unfold renderTick
  rcases hsd : st.sampleData with _ | data
  · simp [hsd]
  · by_cases ha : st.active
    · rcases hrl : renderLoop data st.pitch (st.volume / 64) ((255 - st.pan) / 255)
          (st.pan / 255) st.hasLoop st.loopStart st.loopEnd st.position n
        with ⟨vals, pos', act⟩
      simp [hsd, ha, hrl]
    · simp [hsd, ha]

theorem c9_amended (S : SampleMap) (pow2 : Int → ℚ) (tick nFrames : Nat)
    (st : ChannelState) (hd : st.delayedNote = none)
    (st' : ChannelState) (buf : List Int)
    (h : channelTick S pow2 tick nFrames none st = .ok (st', buf)) :
    st'.sample = st.sample ∧ st'.sampleData = st.sampleData
    ∧ st'.pitch = st.pitch ∧ st'.volume = st.volume ∧ st'.pan = st.pan
    ∧ st'.hasLoop = st.hasLoop ∧ st'.loopStart = st.loopStart
    ∧ st'.loopEnd = st.loopEnd ∧ st'.delayedNote = none
    ∧ st'.delayTicks = st.delayTicks
    ∧ (st'.active = true → st.active = true) := by
  have hch : channelTick S pow2 tick nFrames none st
      = .ok (renderTick (delayedCountdown st) nFrames) := by
    cases tick <;> rfl
  have hdc : delayedCountdown st = st := by
    unfold delayedCountdown
    rw [hd]
  rw [hch, hdc] at h
  injection h with h'
  have hfst : (renderTick st nFrames).1 = st' := by rw [h']
  obtain ⟨h1, h2, h3, h4, h5, h6, h7, h8, h9, h10, h11⟩ := renderTick_preserves st nFrames
  rw [← hfst]
  exact ⟨h1, h2, h3, h4, h5, h6, h7, h8, h9.trans hd, h10, h11⟩

set_option maxRecDepth 10000 in
unseal Rat.add Rat.sub Rat.mul Rat.inv in
/-- Witness for the amended C9 at a concrete delay-free state. -/
theorem c9_amended_witness :
    initialChannelState.sample = initialChannelState.sample
    ∧ initialChannelState.sampleData = initialChannelState.sampleData
    ∧ initialChannelState.pitch = initialChannelState.pitch
    ∧ initialChannelState.volume = initialChannelState.volume
    ∧ initialChannelState.pan = initialChannelState.pan
    ∧ initialChannelState.hasLoop = initialChannelState.hasLoop
    ∧ initialChannelState.loopStart = initialChannelState.loopStart
    ∧ initialChannelState.loopEnd = initialChannelState.loopEnd
    ∧ initialChannelState.delayedNote = none
    ∧ initialChannelState.delayTicks = initialChannelState.delayTicks
    ∧ (initialChannelState.active = true → initialChannelState.active = true) :=
  c9_amended testSamples pow2one 0 1 initialChannelState (by decide)
    initialChannelState [0, 0] (by decide)

/-! ## C4 — MOD initial speed/tempo scan -/

/-- The scan predicate of the code: effect `0xF` AND nonzero
parameter. -/
theorem scanChannels_eq_find (cs : List ModCell) :
    scanChannels cs = cs.find? (fun c => c.effect == 0xF && c.effectParam != 0) := by
  induction cs with
  | nil => rfl
  | cons c cs ih =>
    rw [scanChannels, List.find?_cons]
    by_cases h : c.effect = 0xF ∧ 0 < c.effectParam
    · rw [if_pos h]
      have : (c.effect == 0xF && c.effectParam != 0) = true := by
        simp [h.1]
        omega
      rw [this]
    · rw [if_neg h]
      have : (c.effect == 0xF && c.effectParam != 0) = false := by
        rcases Nat.eq_zero_or_pos c.effectParam with hz | hp
        · simp [hz]
        · have : ¬ c.effect = 0xF := fun he => h ⟨he, hp⟩
          simp [this]
      rw [this, ih]

theorem scanRows_eq_find (rs : List (List ModCell)) :
    scanRows rs = (rs.flatMap (·.take 4)).find?
      (fun c => c.effect == 0xF && c.effectParam != 0) := by
  induction rs with
  | nil => rfl
  | cons r rs ih =>
    rw [scanRows, List.flatMap_cons, List.find?_append, scanChannels_eq_find, ih]
    cases (r.take 4).find? (fun c => c.effect == 0xF && c.effectParam != 0) <;> rfl

theorem scanOrderPositions_eq_find (table : List Nat)
    (patterns : List (List (List ModCell))) (start fuel : Nat) :
    scanOrderPositions table patterns start fuel
      = ((List.range' start fuel).flatMap fun q =>
          (patterns.getD (table.getD q 0) []).flatMap (·.take 4)).find?
        (fun c => c.effect == 0xF && c.effectParam != 0) := by
  induction fuel generalizing start with
  | zero => rfl
  | succ n ih =>
    rw [scanOrderPositions, List.range'_succ, List.flatMap_cons, List.find?_append,
      scanRows_eq_find, ih (start + 1)]
    cases ((patterns.getD (table.getD start 0) []).flatMap (·.take 4)).find?
        (fun c => c.effect == 0xF && c.effectParam != 0) <;> rfl

/-- C4 counterexample: a pattern whose only `0xF`-effect cell has
parameter 0.  The claim's scan (`scanInitialTempoClaimed`, the first
`0xF` cell decides unconditionally) would set `speed = 0`; the code
skips zero-parameter cells (`note.effectParam > 0`) and keeps the
defaults `(6, 125)`. -/
theorem c4_counterexample :
    scanInitialTempo c4Table c4Patterns = (6, 125)
    ∧ scanInitialTempoClaimed c4Table c4Patterns = (0, 125)
    ∧ scanInitialTempo c4Table c4Patterns ≠ scanInitialTempoClaimed c4Table c4Patterns := by
  decide

/-- C4 amended: the initial speed/tempo come from the first cell with
effect `0xF` AND A NONZERO PARAMETER among the scanned cells (the
first `min(3, patterns.length)` play-order positions, rows in order,
first 4 channels): a parameter < 32 sets the speed, one ≥ 32 sets the
tempo, and if no such cell exists the defaults are
`speed = 6`, `tempo = 125`. -/
theorem c4_amended (table : List Nat) (patterns : List (List (List ModCell))) :
    scanInitialTempo table patterns =
      match (scanCells table patterns).find?
          (fun c => c.effect == 0xF && c.effectParam != 0) with
      | some c => if c.effectParam < 32 then (c.effectParam, 125) else (6, c.effectParam)
      | none => (6, 125) := by
  unfold scanInitialTempo scanCells
  rw [scanOrderPositions_eq_find, ← List.range_eq_range']

/-! ## C2 — S3M volume precedence -/

set_option maxRecDepth 10000 in
/-- C2 counterexample: the instrument default is NOT applied only the
first time a channel is used.  In `s3mTestModule`, channel 0 plays
with an explicit volume-column value of 64 on row 0 (resolved volume
64, carried state 64) and with no volume information on row 1.  The
claim says the carried-over channel state (64) should win on row 1;
the code re-applies the instrument default (32) because its
`channelVolume[ch] === 64` test cannot distinguish the initial state
from an explicitly set 64. -/
theorem c2_counterexample :
    ((convertPatterns s3mTestModule nnC4 0 1).getD 0 []).getD 0 none
      = some { sample := "s3m_inst_0", note := .str "C-4", volume := some 64,
               pan := some 128, effect := none, effectParam := none }
    ∧ ((convertPatterns s3mTestModule nnC4 0 1).getD 1 []).getD 0 none
      = some { sample := "s3m_inst_0", note := .str "C-4", volume := some 32,
               pan := some 128, effect := none, effectParam := none }
    ∧ ((32 : ℚ) ≠ 64) := by decide

/-- C2 amended: the volume the adapter resolves
(`resolveVolume`, s3m-loader.js 476-497) obeys:
* effect `0x0C` with a parameter overrides everything, but CLAMPED to
  `min(param, 64)`, not the raw parameter;
* otherwise a volume-column value ≤ 64 overrides the carried state;
* otherwise (no volume column) the instrument default is applied
  WHENEVER the carried channel volume equals 64 — its initial value —
  not only on the channel's first use; a carried value ≠ 64 wins. -/
theorem c2_amended (carried instVol p : Nat) (cellVol : Option Nat)
    (eff effp : Option Nat) :
    ((resolveVolume carried instVol cellVol (some 0x0C) (some p)).1 = min p 64)
    ∧ (eff ≠ some 0x0C → ∀ v ≤ 64,
        (resolveVolume carried instVol (some v) eff effp).1 = v)
    ∧ (eff ≠ some 0x0C →
        (resolveVolume carried instVol none eff effp).1
          = if carried = 64 then instVol else carried) := by
  refine ⟨?_, ?_, ?_⟩
  · unfold resolveVolume
    cases cellVol with
    | none => simp
    | some v => by_cases hv : v ≤ 64 <;> simp [hv]
  · intro he v hv
    unfold resolveVolume
    cases eff with
    | none => simp [hv]
    | some e =>
      have he' : e ≠ 0x0C := fun h => he (by rw [h])
      cases effp <;> simp [hv, he']
  · intro he
    unfold resolveVolume
    cases eff with
    | none => by_cases hc : carried = 64 <;> simp [hc]
    | some e =>
      have he' : e ≠ 0x0C := fun h => he (by rw [h])
      cases effp with
      | none => by_cases hc : carried = 64 <;> simp [hc, he, he']
      | some q => by_cases hc : carried = 64 <;> simp [hc, he, he']

/-- Witness for the amended C2 at concrete values: effect `0x0C` with
parameter 100 resolves to 64 (clamped); a volume column of 5 resolves
to 5; with no volume information a carried state of exactly 64 yields
the instrument default 32. -/
theorem c2_amended_witness :
    (resolveVolume 10 32 (some 5) (some 0x0C) (some 100)).1 = min 100 64
    ∧ (resolveVolume 10 32 (some 5) none none).1 = 5
    ∧ (resolveVolume 64 32 none none none).1 = if (64 : Nat) = 64 then 32 else 64 :=
  ⟨(c2_amended 10 32 100 (some 5) none none).1,
   (c2_amended 10 32 100 (some 5) none none).2.1 (by decide) 5 (by decide),
   (c2_amended 64 32 100 none none none).2.2 (by decide)⟩

/-! ## C8 — S3M note-delay cells -/

/-- Any step the S3M adapter emits carries no effect fields at all:
in particular it never carries the engine's `'SD'` note-delay
effect. -/
theorem convertCell_no_effect (m : S3mModule) (nn : Nat → Nat → String)
    (vols : List Nat) (ch : Nat) (cell? : Option S3mCell) (step : Step)
    (h : (convertCell m nn vols ch cell?).1 = some step) :
    step.effect = none ∧ step.effectParam = none := by
  unfold convertCell at h
  split at h
  · simp at h
  · split at h
    · split at h
      · split at h
        · simp at h
        · split at h
          · simp at h
          · simp at h
            subst h
            exact ⟨rfl, rfl⟩
      · simp at h
    · simp at h

theorem convertChannels_no_effect (m : S3mModule) (nn : Nat → Nat → String)
    (row : List (Option S3mCell)) (fuel : Nat) :
    ∀ (ch : Nat) (vols : List Nat),
      ∀ slot ∈ (convertChannels m nn row ch fuel vols).1,
        ∀ step, slot = some step → step.effect = none ∧ step.effectParam = none := by
  induction fuel with
  | zero => intro ch vols slot hs; simp [convertChannels] at hs
  | succ n ih =>
    intro ch vols slot hs step hstep
    rw [convertChannels] at hs
    rcases List.mem_cons.mp hs with rfl | hmem
    · exact convertCell_no_effect m nn vols ch (row.getD ch none) step hstep
    · exact ih (ch + 1) (convertCell m nn vols ch (row.getD ch none)).2 slot hmem step hstep

theorem convertRows_no_effect (m : S3mModule) (nn : Nat → Nat → String)
    (rows : List (List (Option S3mCell))) :
    ∀ (vols : List Nat), ∀ row' ∈ (convertRows m nn rows vols).1,
      ∀ slot ∈ row', ∀ step, slot = some step →
        step.effect = none ∧ step.effectParam = none := by
  induction rows with
  | nil => intro vols row' hr; simp [convertRows] at hr
  | cons row rows ih =>
    intro vols row' hr slot hs step hstep
    rw [convertRows] at hr
    rcases List.mem_cons.mp hr with rfl | hmem
    · exact convertChannels_no_effect m nn row 32 0 vols slot hs step hstep
    · exact ih (convertChannels m nn row 0 32 vols).2 row' hmem slot hs step hstep

theorem convertOrders_no_effect (m : S3mModule) (nn : Nat → Nat → String)
    (fuel : Nat) :
    ∀ (pos : Nat) (vols : List Nat), ∀ row' ∈ (convertOrders m nn pos fuel vols).1,
      ∀ slot ∈ row', ∀ step, slot = some step →
        step.effect = none ∧ step.effectParam = none := by
  induction fuel with
  | zero => intro pos vols row' hr; simp [convertOrders] at hr
  | succ n ih =>
    intro pos vols row' hr slot hs step hstep
    rw [convertOrders] at hr
    rcases List.mem_append.mp hr with hmem | hmem
    · exact convertRows_no_effect m nn (m.patterns.getD (m.orders.getD pos 0) [])
        vols row' hmem slot hs step hstep
    · exact ih (pos + 1)
        (convertRows m nn (m.patterns.getD (m.orders.getD pos 0) []) vols).2
        row' hmem slot hs step hstep

/-- C8 counterexample: `s3mDelayCell` is flagged with the note-delay
effect (`SD3`), yet the adapter converts it to an EMPTY cell — the
note is dropped, no `delayTicks` is attached (the documented TASK-13
workaround at s3m-loader.js 438-443). -/
theorem c8_counterexample :
    hasNoteDelay s3mDelayCell = true
    ∧ ((convertPatterns s3mDelayModule nnC4 0 1).getD 0 []).getD 0 none = none := by
  decide

/-- C8 amended: the adapter drops note-delay cells instead of keeping
them: a cell flagged with the note-delay effect converts to an empty
slot, and no step the adapter ever emits carries an effect field — so
the engine's `'SD'`/`delayTicks` path is never driven by
`convertPatterns` output. -/
theorem c8_amended (m : S3mModule) (nn : Nat → Nat → String)
    (startOrder numOrders : Nat) :
    (∀ row' ∈ convertPatterns m nn startOrder numOrders, ∀ slot ∈ row',
      ∀ step, slot = some step → step.effect = none ∧ step.effectParam = none)
    ∧ (∀ (vols : List Nat) (ch : Nat) (c : S3mCell), hasNoteDelay c = true →
        (convertCell m nn vols ch (some c)).1 = none) := by
  constructor
  · intro row' hr slot hs step hstep
    exact convertOrders_no_effect m nn _ startOrder (List.replicate 32 64)
      row' hr slot hs step hstep
  · intro vols ch c hdel
    rcases c with ⟨note?, inst?, vol?, eff?, effp?⟩
    unfold convertCell
    split
    · rfl
    · rcases inst? with _ | i
      · rfl
      · rcases note? with _ | nb
        · rfl
        · by_cases h0 : i = 0
          · show (if i = 0 then ((none : Option Step), vols) else _).1 = none
            rw [if_pos h0]
          · show (if i = 0 then ((none : Option Step), vols) else _).1 = none
            rw [if_neg h0, if_pos hdel]


set_option maxRecDepth 10000 in
/-- Witness for the amended C8 at the concrete delay-flagged cell. -/
theorem c8_amended_witness :
    (convertCell s3mDelayModule nnC4 (List.replicate 32 64) 0 (some s3mDelayCell)).1
      = none :=
  (c8_amended s3mDelayModule nnC4 0 1).2 (List.replicate 32 64) 0 s3mDelayCell (by decide)

/-! ## C5 — missing sample aborts the render -/

theorem exceptPure_eq_ok {ε α : Type _} {a b : α}
    (h : (pure a : Except ε α) = .ok b) : a = b := by
  injection h

/-- Error classification of tick-0 cell processing: the failed lookup
of the cell's sample, or else a note-parse failure on a cell whose
sample was found. -/
theorem applyStep_error (S : SampleMap) (pow2 : Int → ℚ) (st : ChannelState)
    (step : Step) (e : SamplerError) (h : applyStep S pow2 st step = .error e) :
    (e = .sampleNotFound step.sample ∧ lookupSample S step.sample = none)
    ∨ ∃ smp, lookupSample S step.sample = some smp ∧ stepSemitone step smp = .error e := by
  unfold applyStep at h
  cases hlk : lookupSample S step.sample with
  | none =>
    simp only [hlk] at h
    injection h with h'
    exact Or.inl ⟨h'.symm, rfl⟩
  | some smp =>
    simp only [hlk] at h
    cases hsem : stepSemitone step smp with
    | error e' =>
      simp only [hsem] at h
      injection h with h'
      exact Or.inr ⟨smp, rfl, by rw [hsem, h']⟩
    | ok n =>
      simp only [hsem] at h
      split at h <;> simp at h

/-- A successful tick-0 cell processing found its sample. -/
theorem applyStep_ok_lookup (S : SampleMap) (pow2 : Int → ℚ) (st : ChannelState)
    (step : Step) (st' : ChannelState) (h : applyStep S pow2 st step = .ok st') :
    (lookupSample S step.sample).isSome := by
  unfold applyStep at h
  cases hlk : lookupSample S step.sample with
  | none => simp only [hlk] at h; exact absurd h (by simp)
  | some smp => simp [hlk]

/-- A channel tick can only fail at tick 0, on a present cell, through
`applyStep`. -/
theorem channelTick_error (S : SampleMap) (pow2 : Int → ℚ) (tick nFrames : Nat)
    (step? : Option Step) (st : ChannelState) (e : SamplerError)
    (h : channelTick S pow2 tick nFrames step? st = .error e) :
    tick = 0 ∧ ∃ step, step? = some step ∧ applyStep S pow2 st step = .error e := by
  cases tick with
  | zero =>
    cases step? with
    | none =>
      have : channelTick S pow2 0 nFrames none st
          = .ok (renderTick (delayedCountdown st) nFrames) := rfl
      rw [this] at h
      exact absurd h (by simp)
    | some step =>
      refine ⟨rfl, step, rfl, ?_⟩
      have hdef : channelTick S pow2 0 nFrames (some step) st
          = applyStep S pow2 st step >>= fun st1 =>
              pure (renderTick (delayedCountdown st1) nFrames) := rfl
      rw [hdef] at h
      rcases exceptBind_eq_error.mp h with he | ⟨a, -, hpure⟩
      · exact he
      · exact absurd hpure (by simp [pure, Except.pure])
  | succ n =>
    have : channelTick S pow2 (n + 1) nFrames step? st
        = .ok (renderTick (delayedCountdown st) nFrames) := rfl
    rw [this] at h
    exact absurd h (by simp)

/-- A successful tick-0 processing of a present cell found its
sample. -/
theorem channelTick_ok_lookup (S : SampleMap) (pow2 : Int → ℚ) (nFrames : Nat)
    (step : Step) (st : ChannelState) (out : ChannelState × List Int)
    (h : channelTick S pow2 0 nFrames (some step) st = .ok out) :
    (lookupSample S step.sample).isSome := by
  have hdef : channelTick S pow2 0 nFrames (some step) st
      = applyStep S pow2 st step >>= fun st1 =>
          pure (renderTick (delayedCountdown st1) nFrames) := rfl
  rw [hdef] at h
  rcases exceptBind_eq_ok.mp h with ⟨st1, hst1, -⟩
  exact applyStep_ok_lookup S pow2 st step st1 hst1

theorem rowTickChannels_length (S : SampleMap) (pow2 : Int → ℚ)
    (tick nFrames : Nat) (steps : List (Option Step)) :
    ∀ (sts : List ChannelState) (i : Nat) (sts' : List ChannelState)
      (bufs : List (List Int)),
      rowTickChannels S pow2 tick nFrames steps i sts = .ok (sts', bufs) →
      sts'.length = sts.length := by
  intro sts
  induction sts with
  | nil =>
    intro i sts' bufs h
    rw [rowTickChannels] at h
    injection h with h'
    injection h' with ha hb
    rw [← ha]
  | cons st sts ih =>
    intro i sts' bufs h
    rw [rowTickChannels] at h
    rcases exceptBind_eq_ok.mp h with ⟨⟨st1, buf1⟩, h1, h2⟩
    rcases exceptBind_eq_ok.mp h2 with ⟨⟨sts1, bufs1⟩, h3, h4⟩
    have h5 := exceptPure_eq_ok h4
    have hfst : st1 :: sts1 = sts' := congrArg Prod.fst h5
    rw [← hfst]
    simpa using ih (i + 1) sts1 bufs1 h3

/-- Success of tick-0 row processing means every covered cell's sample
was found. -/
theorem rowTickChannels_ok_lookup (S : SampleMap) (pow2 : Int → ℚ)
    (nFrames : Nat) (steps : List (Option Step)) :
    ∀ (sts : List ChannelState) (i : Nat) (out : List ChannelState × List (List Int)),
      rowTickChannels S pow2 0 nFrames steps i sts = .ok out →
      ∀ j, j < sts.length → ∀ step, steps.getD (i + j) none = some step →
        (lookupSample S step.sample).isSome := by
  intro sts
  induction sts with
  | nil => intro i out h j hj; simp at hj
  | cons st sts ih =>
    intro i out h j hj step hstep
    rw [rowTickChannels] at h
    rcases exceptBind_eq_ok.mp h with ⟨⟨st1, buf1⟩, h1, h2⟩
    rcases exceptBind_eq_ok.mp h2 with ⟨⟨sts1, bufs1⟩, h3, -⟩
    cases j with
    | zero =>
      rw [Nat.add_zero] at hstep
      rw [hstep] at h1
      exact channelTick_ok_lookup S pow2 nFrames step st (st1, buf1) h1
    | succ j' =>
      refine ih (i + 1) (sts1, bufs1) h3 j' (by simpa using Nat.lt_of_succ_lt_succ hj) step ?_
      rw [← hstep]
      congr 1
      omega

theorem rowTickChannels_error (S : SampleMap) (pow2 : Int → ℚ)
    (tick nFrames : Nat) (steps : List (Option Step)) :
    ∀ (sts : List ChannelState) (i : Nat) (e : SamplerError),
      rowTickChannels S pow2 tick nFrames steps i sts = .error e →
      ∃ step st, (∃ j, steps.getD j none = some step)
        ∧ applyStep S pow2 st step = .error e := by
  intro sts
  induction sts with
  | nil =>
    intro i e h
    rw [rowTickChannels] at h
    exact absurd h (by simp)
  | cons st sts ih =>
    intro i e h
    rw [rowTickChannels] at h
    rcases exceptBind_eq_error.mp h with h1 | ⟨⟨st1, buf1⟩, -, h2⟩
    · obtain ⟨-, step, hsome, happ⟩ :=
        channelTick_error S pow2 tick nFrames (steps.getD i none) st e h1
      exact ⟨step, st, ⟨i, hsome⟩, happ⟩
    · rcases exceptBind_eq_error.mp h2 with h3 | ⟨⟨sts1, bufs1⟩, -, h4⟩
      · exact ih (i + 1) e h3
      · exact absurd h4 (by simp [pure, Except.pure])

theorem rowTicks_length (S : SampleMap) (pow2 : Int → ℚ) (nFrames : Nat)
    (steps : List (Option Step)) :
    ∀ (fuel tick : Nat) (sts sts' : List ChannelState)
      (bufs : List (List (List Int))),
      rowTicks S pow2 nFrames steps tick fuel sts = .ok (sts', bufs) →
      sts'.length = sts.length := by
  intro fuel
  induction fuel with
  | zero =>
    intro tick sts sts' bufs h
    rw [rowTicks] at h
    injection h with h'
    injection h' with ha hb
    rw [← ha]
  | succ n ih =>
    intro tick sts sts' bufs h
    rw [rowTicks] at h
    rcases exceptBind_eq_ok.mp h with ⟨⟨sts1, bufs1⟩, h1, h2⟩
    rcases exceptBind_eq_ok.mp h2 with ⟨⟨sts2, rest⟩, h3, h4⟩
    have h5 := exceptPure_eq_ok h4
    have hfst : sts2 = sts' := congrArg Prod.fst h5
    rw [← hfst, ih (tick + 1) sts1 sts2 rest h3,
      rowTickChannels_length S pow2 tick nFrames steps sts 0 sts1 bufs1 h1]

/-- A successful row (at least one tick) found every covered cell's
sample during its tick 0. -/
theorem rowTicks_ok_lookup (S : SampleMap) (pow2 : Int → ℚ) (nFrames fuel : Nat)
    (steps : List (Option Step)) (sts : List ChannelState)
    (out : List ChannelState × List (List (List Int)))
    (hf : 0 < fuel) (h : rowTicks S pow2 nFrames steps 0 fuel sts = .ok out) :
    ∀ j, j < sts.length → ∀ step, steps.getD j none = some step →
      (lookupSample S step.sample).isSome := by
  obtain ⟨m, rfl⟩ : ∃ m, fuel = m + 1 := ⟨fuel - 1, by omega⟩
  rw [rowTicks] at h
  rcases exceptBind_eq_ok.mp h with ⟨⟨sts1, bufs1⟩, h1, -⟩
  intro j hj step hstep
  exact rowTickChannels_ok_lookup S pow2 nFrames steps sts 0 (sts1, bufs1) h1
    j hj step (by simpa using hstep)

theorem rowTicks_error (S : SampleMap) (pow2 : Int → ℚ) (nFrames : Nat)
    (steps : List (Option Step)) :
    ∀ (fuel tick : Nat) (sts : List ChannelState) (e : SamplerError),
      rowTicks S pow2 nFrames steps tick fuel sts = .error e →
      ∃ step st, (∃ j, steps.getD j none = some step)
        ∧ applyStep S pow2 st step = .error e := by
  intro fuel
  induction fuel with
  | zero =>
    intro tick sts e h
    rw [rowTicks] at h
    exact absurd h (by simp)
  | succ n ih =>
    intro tick sts e h
    rw [rowTicks] at h
    rcases exceptBind_eq_error.mp h with h1 | ⟨⟨sts1, bufs1⟩, -, h2⟩
    · exact rowTickChannels_error S pow2 tick nFrames steps sts 0 e h1
    · rcases exceptBind_eq_error.mp h2 with h3 | ⟨⟨sts2, rest⟩, -, h4⟩
      · exact ih (tick + 1) sts1 e h3
      · exact absurd h4 (by simp [pure, Except.pure])

/-- Success of the whole pattern build means every covered cell's
sample was found. -/
theorem buildRows_ok_lookup (S : SampleMap) (pow2 : Int → ℚ)
    (nFrames speedTicks : Nat) (hsp : 0 < speedTicks) :
    ∀ (rows : List (List (Option Step))) (sts : List ChannelState)
      (out : List ChannelState × List (List (List Int))),
      buildRows S pow2 nFrames speedTicks rows sts = .ok out →
      ∀ row ∈ rows, ∀ j, j < sts.length → ∀ step, row.getD j none = some step →
        (lookupSample S step.sample).isSome := by
  intro rows
  induction rows with
  | nil => intro sts out h row hrow; simp at hrow
  | cons row rows ih =>
    intro sts out h row' hrow' j hj step hstep
    rw [buildRows] at h
    rcases exceptBind_eq_ok.mp h with ⟨⟨sts1, bufs1⟩, h1, h2⟩
    rcases exceptBind_eq_ok.mp h2 with ⟨⟨sts2, rest⟩, h3, -⟩
    rcases List.mem_cons.mp hrow' with rfl | hmem
    · exact rowTicks_ok_lookup S pow2 nFrames speedTicks row' sts (sts1, bufs1)
        hsp h1 j hj step hstep
    · have hlen : sts1.length = sts.length :=
        rowTicks_length S pow2 nFrames row speedTicks 0 sts sts1 bufs1 h1
      exact ih sts1 (sts2, rest) h3 row' hmem j (by omega) step hstep

theorem buildRows_error (S : SampleMap) (pow2 : Int → ℚ)
    (nFrames speedTicks : Nat) :
    ∀ (rows : List (List (Option Step))) (sts : List ChannelState) (e : SamplerError),
      buildRows S pow2 nFrames speedTicks rows sts = .error e →
      ∃ row ∈ rows, ∃ step st, (∃ j, row.getD j none = some step)
        ∧ applyStep S pow2 st step = .error e := by
  intro rows
  induction rows with
  | nil =>
    intro sts e h
    rw [buildRows] at h
    exact absurd h (by simp)
  | cons row rows ih =>
    intro sts e h
    rw [buildRows] at h
    rcases exceptBind_eq_error.mp h with h1 | ⟨⟨sts1, bufs1⟩, -, h2⟩
    · obtain ⟨step, st, hj, happ⟩ := rowTicks_error S pow2 nFrames row speedTicks 0 sts e h1
      exact ⟨row, List.mem_cons_self row rows, step, st, hj, happ⟩
    · rcases exceptBind_eq_error.mp h2 with h3 | ⟨⟨sts2, rest⟩, -, h4⟩
      · obtain ⟨row', hmem, rest'⟩ := ih sts1 e h3
        exact ⟨row', List.mem_cons_of_mem row hmem, rest'⟩
      · exact absurd h4 (by simp [pure, Except.pure])

theorem getD_some_mem {α : Type _} (l : List (Option α)) (j : Nat) (x : α)
    (h : l.getD j none = some x) : some x ∈ l ∧ j < l.length := by
  induction l generalizing j with
  | nil => simp [List.getD] at h
  | cons a l ih =>
    cases j with
    | zero =>
      rw [List.getD_cons_zero] at h
      exact ⟨h ▸ List.mem_cons_self a l, by simp⟩
    | succ j' =>
      rw [List.getD_cons_succ] at h
      obtain ⟨hm, hl⟩ := ih j' h
      exact ⟨List.mem_cons_of_mem a hm, by simpa using Nat.succ_lt_succ hl⟩

theorem foldl_max_le_init (l : List (List (Option Step))) :
    ∀ b : Nat, b ≤ l.foldl (fun n row => max n row.length) b := by
  induction l with
  | nil => intro b; exact le_refl b
  | cons x xs ih => intro b; exact le_trans (le_max_left b x.length) (ih (max b x.length))

/-- Every row of a pattern fits inside the pattern's channel count. -/
theorem length_le_patternChannels (pattern : List (List (Option Step))) :
    ∀ row ∈ pattern, row.length ≤ patternChannels pattern := by
  suffices h : ∀ (l : List (List (Option Step))) (a : Nat), ∀ row ∈ l,
      row.length ≤ l.foldl (fun n row => max n row.length) a by
    intro row hrow
    exact h pattern 4 row hrow
  intro l
  induction l with
  | nil => intro a row hrow; simp at hrow
  | cons x xs ih =>
    intro a row hrow
    rcases List.mem_cons.mp hrow with rfl | hmem
    · exact le_trans (le_max_right a row.length) (foldl_max_le_init xs (max a row.length))
    · exact ih (max a x.length) row hmem

theorem playPattern_error_of_buildRows (S : SampleMap) (pow2 : Int → ℚ)
    (sqrtQ : Nat → ℚ) (pattern : List (List (Option Step))) (o : PlayOptions)
    (e : SamplerError) (hb : bpmMissing o = false)
    (hB : buildRows S pow2 (tickFrames (effTempo o)) (effSpeed o).toNat pattern
      (List.replicate (patternChannels pattern) initialChannelState) = .error e) :
    playPattern S pow2 sqrtQ pattern o = .error e := by
  unfold playPattern
  rw [if_neg (by simp [hb]), hB, error_bind]

/-- C5 amended: a pattern that references an unregistered sample name
makes `playPattern` fail with `SampleNotFound` — and hence return no
buffer at all, so no partial output reaches the output sink —
PROVIDED the configured speed is positive (cells are only examined at
tick 0 of each row; a non-positive speed skips all cell processing)
and every cell whose sample IS registered has a well-formed note
(a malformed note string on an earlier-processed cell aborts the
render just as surely, but with `InvalidNoteFormat` instead, as the
counterexample shows). -/
theorem c5_amended (S : SampleMap) (pow2 : Int → ℚ) (sqrtQ : Nat → ℚ)
    (pattern : List (List (Option Step))) (o : PlayOptions)
    (hb : bpmMissing o = false)
    (hsp : 0 < effSpeed o)
    (hnotes : ∀ row ∈ pattern, ∀ slot ∈ row, ∀ step, slot = some step →
      ∀ smp, lookupSample S step.sample = some smp →
        ∃ n, stepSemitone step smp = Except.ok n)
    (hmiss : ∃ row ∈ pattern, ∃ i step, row.getD i none = some step ∧
      lookupSample S step.sample = none) :
    ∃ name, playPattern S pow2 sqrtQ pattern o = .error (.sampleNotFound name)
      ∧ lookupSample S name = none := by
  have hsp' : 0 < (effSpeed o).toNat := by omega
  rcases hB : buildRows S pow2 (tickFrames (effTempo o)) (effSpeed o).toNat pattern
      (List.replicate (patternChannels pattern) initialChannelState) with e | out
  · -- the build fails; classify the error
    obtain ⟨row', hrow', step, st, ⟨j, hget⟩, happ⟩ :=
      buildRows_error S pow2 (tickFrames (effTempo o)) (effSpeed o).toNat
        pattern _ e hB
    rcases applyStep_error S pow2 st step e happ with ⟨rfl, hnone⟩ | ⟨smp, hlk, hsem⟩
    · exact ⟨step.sample,
        playPattern_error_of_buildRows S pow2 sqrtQ pattern o _ hb hB, hnone⟩
    · obtain ⟨hmem, -⟩ := getD_some_mem row' j step hget
      obtain ⟨n, hok⟩ := hnotes row' hrow' (some step) hmem step rfl smp hlk
      rw [hok] at hsem
      exact absurd hsem (by simp)
  · -- the build cannot succeed: the missing reference would have been found
    obtain ⟨row, hrow, i, step, hget, hnone⟩ := hmiss
    obtain ⟨-, hi⟩ := getD_some_mem row i step hget
    have hich : i < (List.replicate (patternChannels pattern) initialChannelState).length := by
      rw [List.length_replicate]
      exact lt_of_lt_of_le hi (length_le_patternChannels pattern row hrow)
    have := buildRows_ok_lookup S pow2 (tickFrames (effTempo o)) (effSpeed o).toNat
      hsp' pattern _ out hB row hrow i hich step hget
    rw [hnone] at this
    exact absurd this (by simp)

set_option maxRecDepth 10000 in
unseal Rat.add Rat.sub Rat.mul Rat.inv in
/-- C5 counterexample: `c5Pattern` contains a cell referencing the
unregistered sample `"ghost"` (row 1), yet the render aborts with
`InvalidNoteFormat` for the malformed note `"H-4"` of the
earlier-processed row-0 cell — not with `SampleNotFound` as the claim
states for EVERY such pattern. -/
theorem c5_counterexample :
    playPattern testSamples pow2one sqrtTwo c5Pattern testOptions
      = .error (.invalidNoteFormat "H-4")
    ∧ lookupSample testSamples "ghost" = none
    ∧ SamplerError.invalidNoteFormat "H-4" ≠ SamplerError.sampleNotFound "ghost" := by
  decide

set_option maxRecDepth 10000 in
unseal Rat.add Rat.sub Rat.mul Rat.inv in
/-- Witness for the amended C5: the one-cell `"ghost"` pattern fails
with `SampleNotFound` and produces no output buffer. -/
theorem c5_amended_witness :
    playPattern testSamples pow2one sqrtTwo ghostPattern testOptions
      = .error (.sampleNotFound "ghost")
    ∧ lookupSample testSamples "ghost" = none := by
  have heval : playPattern testSamples pow2one sqrtTwo ghostPattern testOptions
      = .error (.sampleNotFound "ghost") := by decide
  refine ⟨heval, ?_⟩
  obtain ⟨name, h1, h2⟩ := c5_amended testSamples pow2one sqrtTwo ghostPattern testOptions
    (by decide) (by decide)
    (by
      intro row hrow slot hslot step hstep smp hsmp
      have hrow' : row = [some ghostStep] := by simpa [ghostPattern] using hrow
      subst hrow'
      have hslot' : slot = some ghostStep := by simpa using hslot
      subst hslot'
      injection hstep.symm with hstep'
      subst hstep'
      have hnone : lookupSample testSamples ghostStep.sample = none := by decide
      rw [hnone] at hsmp
      exact Option.noConfusion hsmp)
    ⟨[some ghostStep], by decide, 0, ghostStep, by decide, by decide⟩
  rw [heval] at h1
  injection h1 with h1'
  injection h1' with h1''
  rw [← h1''] at h2
  exact h2

end NoiseCanvas
